import Mathlib

/-!
Shallow embedding of the `claude-prompt-guide` repository
(`src/prompt_guide/cli.py` and `src/prompt_guide/claude_cli.py`).

Python values decoded from JSON are modelled by the inductive `Json`;
Python dicts are insertion-ordered association lists (`dictSet` updates
an existing key in place, preserving its position, exactly as CPython
dicts do).  `json.loads` is modelled by `loadsL`, a fuel-based
recursive-descent parser of the JSON grammar; JSON numbers are kept as
a mantissa and a power of ten since no code path inspects numeric
values beyond truthiness.  Failure by exception is modelled with
`Except`; Python truthiness of decoded values is `isFalsy`.
-/

namespace PromptGuide

/-- Model of Python values produced by `json.loads`: null, booleans,
numbers (mantissa times ten to the power `pow10`), strings, lists and
insertion-ordered dicts. -/
inductive Json where
  | null : Json
  | bool (b : Bool) : Json
  | num (mantissa : Int) (pow10 : Int) : Json
  | str (s : String) : Json
  | arr (items : List Json) : Json
  | obj (fields : List (String × Json)) : Json
deriving Repr

/-- Dict lookup on an association list (Python `d.get(k)` / `d[k]`). -/
def dictLookup {α : Type} : List (String × α) → String → Option α
  | [], _ => none
  | (k', v') :: rest, k => if k' = k then some v' else dictLookup rest k

/-- Dict assignment `d[k] = v` on an association list: updates an
existing key in place (keeping its original position, as CPython dicts
do) or appends a new entry at the end. -/
def dictSet {α : Type} : List (String × α) → String → α → List (String × α)
  | [], k, v => [(k, v)]
  | (k', v') :: rest, k, v =>
      if k' = k then (k', v) :: rest else (k', v') :: dictSet rest k v

/-- Whitespace characters recognised by the JSON grammar. -/
def jsonWs (c : Char) : Bool :=
  c == ' ' || c == '\t' || c == '\n' || c == '\r'

/-- Skip leading JSON whitespace. -/
def skipWs (cs : List Char) : List Char :=
  cs.dropWhile jsonWs

/-- Hexadecimal digit value, if any. -/
def hexVal (c : Char) : Option Nat :=
  if '0' ≤ c ∧ c ≤ '9' then some (c.toNat - 48)
  else if 'a' ≤ c ∧ c ≤ 'f' then some (c.toNat - 87)
  else if 'A' ≤ c ∧ c ≤ 'F' then some (c.toNat - 55)
  else none

/-- Parse the body of a JSON string literal (after the opening quote),
returning the decoded characters and the remaining input.  Raw control
characters are rejected, as in Python's strict default mode. -/
def parseStringBody : Nat → List Char → Option (List Char × List Char)
  | 0, _ => none
  | _, [] => none
  | fuel + 1, c :: cs =>
    if c = '"' then some ([], cs)
    else if c = '\\' then
      match cs with
      | [] => none
      | e :: cs2 =>
        if e = '"' then (parseStringBody fuel cs2).map (fun p => ('"' :: p.1, p.2))
        else if e = '\\' then (parseStringBody fuel cs2).map (fun p => ('\\' :: p.1, p.2))
        else if e = '/' then (parseStringBody fuel cs2).map (fun p => ('/' :: p.1, p.2))
        else if e = 'b' then (parseStringBody fuel cs2).map (fun p => (Char.ofNat 8 :: p.1, p.2))
        else if e = 'f' then (parseStringBody fuel cs2).map (fun p => (Char.ofNat 12 :: p.1, p.2))
        else if e = 'n' then (parseStringBody fuel cs2).map (fun p => ('\n' :: p.1, p.2))
        else if e = 'r' then (parseStringBody fuel cs2).map (fun p => ('\r' :: p.1, p.2))
        else if e = 't' then (parseStringBody fuel cs2).map (fun p => ('\t' :: p.1, p.2))
        else if e = 'u' then
          match cs2 with
          | h1 :: h2 :: h3 :: h4 :: cs3 =>
            match hexVal h1, hexVal h2, hexVal h3, hexVal h4 with
            | some a, some b, some c3, some d =>
              (parseStringBody fuel cs3).map
                (fun p => (Char.ofNat (a * 4096 + b * 256 + c3 * 16 + d) :: p.1, p.2))
            | _, _, _, _ => none
          | _ => none
        else none
    else if c.toNat < 32 then none
    else (parseStringBody fuel cs).map (fun p => (c :: p.1, p.2))

/-- Decimal value of a digit list. -/
def digitsToNat (ds : List Char) : Nat :=
  ds.foldl (fun n c => n * 10 + (c.toNat - 48)) 0

/-- Parse a JSON number literal at the head of the input. -/
def parseNumber (cs : List Char) : Option (Json × List Char) :=
  let signAndRest : Bool × List Char :=
    match cs with
    | '-' :: r => (true, r)
    | _ => (false, cs)
  let neg := signAndRest.1
  let cs1 := signAndRest.2
  let intDigits := cs1.takeWhile Char.isDigit
  let rest1 := cs1.dropWhile Char.isDigit
  if intDigits = [] then none
  else if intDigits.head? = some '0' ∧ intDigits.length > 1 then none
  else
    let fracPart : List Char × List Char × Bool :=
      match rest1 with
      | '.' :: r =>
        (r.takeWhile Char.isDigit, r.dropWhile Char.isDigit, !(r.takeWhile Char.isDigit).isEmpty)
      | _ => ([], rest1, true)
    let fracDigits := fracPart.1
    let rest2 := fracPart.2.1
    if fracPart.2.2 = false then none
    else
      let expPart : Int × List Char × Bool :=
        match rest2 with
        | e :: r =>
          if e = 'e' ∨ e = 'E' then
            let signed : Int × List Char :=
              match r with
              | '+' :: rr => (1, rr)
              | '-' :: rr => (-1, rr)
              | _ => (1, r)
            let ed := signed.2.takeWhile Char.isDigit
            (signed.1 * (digitsToNat ed : Int), signed.2.dropWhile Char.isDigit, !ed.isEmpty)
          else (0, rest2, true)
        | [] => (0, rest2, true)
      if expPart.2.2 = false then none
      else
        let mantissa : Int := (digitsToNat (intDigits ++ fracDigits) : Int)
        some (Json.num (if neg then -mantissa else mantissa)
                (expPart.1 - (fracDigits.length : Int)), expPart.2.1)

mutual

/-- Parse one JSON value at the head of the input (fuel-based model of
the recursive-descent decoder inside Python's `json.loads`). -/
def parseVal : Nat → List Char → Option (Json × List Char)
  | 0, _ => none
  | fuel + 1, cs =>
    match skipWs cs with
    | [] => none
    | c :: rest =>
      if c = 'n' then
        match rest with
        | 'u' :: 'l' :: 'l' :: r => some (Json.null, r)
        | _ => none
      else if c = 't' then
        match rest with
        | 'r' :: 'u' :: 'e' :: r => some (Json.bool true, r)
        | _ => none
      else if c = 'f' then
        match rest with
        | 'a' :: 'l' :: 's' :: 'e' :: r => some (Json.bool false, r)
        | _ => none
      else if c = '"' then
        (parseStringBody (rest.length + 1) rest).map (fun p => (Json.str (String.mk p.1), p.2))
      else if c = '[' then
        match skipWs rest with
        | ']' :: r => some (Json.arr [], r)
        | other => parseArrItems fuel other []
      else if c = '\x7b' then
        match skipWs rest with
        | '\x7d' :: r => some (Json.obj [], r)
        | other => parseObjItems fuel other []
      else if c = '-' ∨ c.isDigit then parseNumber (c :: rest)
      else none

/-- Parse the remaining comma-separated items of a JSON array. -/
def parseArrItems : Nat → List Char → List Json → Option (Json × List Char)
  | 0, _, _ => none
  | fuel + 1, cs, acc =>
    match parseVal fuel cs with
    | none => none
    | some (v, rest) =>
      match skipWs rest with
      | ',' :: r => parseArrItems fuel r (acc ++ [v])
      | ']' :: r => some (Json.arr (acc ++ [v]), r)
      | _ => none

/-- Parse the remaining comma-separated members of a JSON object.
Duplicate keys overwrite earlier ones, as in Python. -/
def parseObjItems : Nat → List Char → List (String × Json) → Option (Json × List Char)
  | 0, _, _ => none
  | fuel + 1, cs, acc =>
    match skipWs cs with
    | '"' :: r =>
      match parseStringBody (r.length + 1) r with
      | none => none
      | some (key, rest) =>
        match skipWs rest with
        | ':' :: r2 =>
          match parseVal fuel r2 with
          | none => none
          | some (v, rest2) =>
            match skipWs rest2 with
            | ',' :: r3 => parseObjItems fuel r3 (dictSet acc (String.mk key) v)
            | '\x7d' :: r3 => some (Json.obj (dictSet acc (String.mk key) v), r3)
            | _ => none
        | _ => none
    | _ => none

end

/-- Model of Python `json.loads` on a character list: parse one value
and require that only whitespace remains.  The fuel bound is generous:
every recursive step either consumes input or descends into it. -/
def loadsL (cs : List Char) : Option Json :=
  match parseVal (2 * cs.length + 8) cs with
  | some (v, rest) => if skipWs rest = [] then some v else none
  | none => none

/-- Characters stripped by Python `str.strip()` (the ASCII whitespace
subset; the code never feeds it exotic Unicode whitespace). -/
def pySpace (c : Char) : Bool :=
  c == ' ' || c == '\t' || c == '\n' || c == '\r' || c == '\x0b' || c == '\x0c'

/-- Model of Python `str.strip()` on a character list. -/
def pyStrip (cs : List Char) : List Char :=
  ((cs.dropWhile pySpace).reverse.dropWhile pySpace).reverse

/-- Model of Python `str.replace(pat, rep)` for a nonempty pattern:
replace non-overlapping occurrences left to right.  The fuel argument
is instantiated with the input length, which suffices because each
step consumes at least one character. -/
def replaceFuel (pat rep : List Char) : Nat → List Char → List Char
  | _, [] => []
  | 0, cs => cs
  | fuel + 1, c :: cs =>
    if pat.isPrefixOf (c :: cs) ∧ pat ≠ [] then
      rep ++ replaceFuel pat rep fuel ((c :: cs).drop pat.length)
    else
      c :: replaceFuel pat rep fuel cs

/-- Model of Python `str.replace(pat, rep)`. -/
def pyReplace (cs pat rep : List Char) : List Char :=
  replaceFuel pat rep cs.length cs

/-- The cleaning step of `parse_json_response`:
`raw.replace("```json", "").replace("```", "").strip()`. -/
def cleanedOf (raw : String) : List Char :=
  pyStrip (pyReplace (pyReplace raw.data "```json".data []) "```".data [])

/-- Index of the first occurrence of a character (Python `s.find(c)`,
with absence modelled as `none` instead of `-1`). -/
def firstIdx (cs : List Char) (c : Char) : Option Nat :=
  match cs with
  | [] => none
  | c' :: rest =>
    if c' = c then some 0 else (firstIdx rest c).map (· + 1)

/-- Index of the last occurrence of a character (Python `s.rfind(c)`,
with absence modelled as `none` instead of `-1`). -/
def lastIdx (cs : List Char) (c : Char) : Option Nat :=
  (firstIdx cs.reverse c).map (fun i => cs.length - 1 - i)

/-- The fallback extraction of `parse_json_response`: the substring
from the first opening brace to the last closing brace, when
`start >= 0 and end > start` holds (with `end = rfind + 1`). -/
def extractBraces (cs : List Char) : Option (List Char) :=
  match firstIdx cs '\x7b', lastIdx cs '\x7d' with
  | some s, some e =>
    if e + 1 > s then some ((cs.drop s).take (e + 1 - s)) else none
  | _, _ => none

/-- The second parse attempt of `parse_json_response`: extract the
brace-delimited substring and strictly parse it. -/
def fallbackParse (cs : List Char) : Option Json :=
  (extractBraces cs).bind loadsL

/-- Model of `parse_json_response` (src/prompt_guide/cli.py, lines
83-97).  Note that on strict-parse success it returns whatever value
was decoded, which need not be a dict — the Python `-> dict`
annotation is not enforced. -/
def parse_json_response (raw : String) : Json :=
  let cleaned := cleanedOf raw
  match loadsL cleaned with
  | some v => v
  | none =>
    match extractBraces cleaned with
    | some sub =>
      match loadsL sub with
      | some v => v
      | none => Json.obj []
    | none => Json.obj []

/-- Python truthiness of a decoded value (`not result` tests). -/
def isFalsy : Json → Bool
  | Json.null => true
  | Json.bool b => !b
  | Json.num m _ => m == 0
  | Json.str s => s.data.isEmpty
  | Json.arr l => l.isEmpty
  | Json.obj l => l.isEmpty

/-- The per-element test of `_validate_questions`:
`isinstance(q, dict) and isinstance(q.get("question"), str) and
q["question"].strip()`. -/
def questionFieldOk (q : Json) : Bool :=
  match q with
  | Json.obj kvs =>
    match dictLookup kvs "question" with
    | some (Json.str s) => !(pyStrip s.data).isEmpty
    | _ => false
  | _ => false

/-- Model of `_validate_questions` (src/prompt_guide/cli.py, lines
100-106): the accumulator loop that appends each well-formed entry.
The Python name carries a leading underscore, dropped here. -/
def validate_questions (questions : List Json) : List Json :=
  questions.foldl (fun valid q => if questionFieldOk q then valid ++ [q] else valid) []

/-- Python exceptions that the embedded code can actually raise. -/
inductive PyError where
  | attributeError : PyError
deriving Repr, DecidableEq

/-- The fallback analysis record `{"task_summary": "", "questions": []}`. -/
def defaultAnalysis : Json :=
  Json.obj [("task_summary", Json.str ""), ("questions", Json.arr [])]

/-- Model of `analyze` (src/prompt_guide/cli.py, lines 109-128),
parametrised by the invoker's output string (`call_claude` already
returns a stripped string, or the empty string on tool failure).
`result.get("questions", [])` is an attribute access on whatever
`parse_json_response` returned: on a truthy non-dict (for example the
decoding of `"5"`) it raises `AttributeError`. -/
def analyze_core (response : String) : Except PyError Json :=
  if response = "" then Except.ok defaultAnalysis
  else
    let result := parse_json_response response
    if isFalsy result then Except.ok defaultAnalysis
    else
      match result with
      | Json.obj kvs =>
        let rawQuestions := (dictLookup kvs "questions").getD (Json.arr [])
        let rqList :=
          match rawQuestions with
          | Json.arr l => l
          | _ => []
        Except.ok (Json.obj (dictSet kvs "questions" (Json.arr (validate_questions rqList))))
      | _ => Except.error PyError.attributeError

/-- The filesystem and PATH facts that `find_claude_cli` consults:
the result of `shutil.which("claude")`, the `os.path.isfile` predicate
and `os.path.expanduser`. -/
structure ResolveEnv where
  whichClaude : Option String
  isFile : String → Bool
  expanduser : String → String

/-- Return value of one `find_claude_cli` call: the resolved path (or
`none`), the value of the module-global `_cached_claude_bin`
afterwards, and whether a fresh search was performed (as opposed to a
cache hit). -/
structure FindResult where
  res : Option String
  cache : Option String
  searched : Bool
deriving Repr, DecidableEq

/-- Model of `find_claude_cli` (src/prompt_guide/claude_cli.py, lines
16-31).  The module-global `_cached_claude_bin` is threaded
explicitly.  Mirrors the code exactly: a cache hit returns at once;
`shutil.which` wins when truthy; then each fallback path is expanded
and tested; the exhaustive-failure branch returns `None` WITHOUT
writing the cache. -/
def find_claude_cli (cache : Option String) (env : ResolveEnv) : FindResult :=
  match cache with
  | some b => ⟨some b, some b, false⟩
  | none =>
    match env.whichClaude with
    | some found =>
      if found ≠ "" then ⟨some found, some found, true⟩
      else find_fallback cache env
    | none => find_fallback cache env
where
  find_fallback (cache : Option String) (env : ResolveEnv) : FindResult :=
    let p1 := env.expanduser "~/.claude/local/claude"
    if env.isFile p1 then ⟨some p1, some p1, true⟩
    else
      let p2 := env.expanduser "/usr/local/bin/claude"
      if env.isFile p2 then ⟨some p2, some p2, true⟩
      else ⟨none, cache, true⟩

/-- Outcome of the `subprocess.run` invocation inside `call_claude`:
a completed process, or one of the exceptions `subprocess.run` can
raise.  `timeoutExpired` and `fileNotFound` are the two exception
classes the code's `except` clauses name; `permissionError` stands
for the other spawn-time `OSError`s (most plainly `PermissionError`
when the resolved path exists but is not executable, which the
`os.path.isfile`-only fallback check at claude_cli.py line 28 cannot
rule out) that the code does not catch. -/
inductive SubprocOutcome where
  | completed (returncode : Int) (stdout stderr : String)
  | timeoutExpired
  | fileNotFound
  | permissionError
deriving Repr, DecidableEq

/-- The exceptions that can escape `call_claude`: the deliberately
raised `ClaudeNotFoundError`, and `PermissionError` from
`subprocess.run`, which no `except` clause catches. -/
inductive InvokerError where
  | claudeNotFound
  | permissionError
deriving Repr, DecidableEq

/-- Model of `call_claude` (src/prompt_guide/claude_cli.py, lines
34-80): resolve the binary (raising `ClaudeNotFoundError` when the
resolution is falsy), then run the subprocess; a nonzero exit code,
a timeout or a `FileNotFoundError` spawn failure each yield the
empty string, and success yields the stripped standard output.  The
`try` block catches ONLY `subprocess.TimeoutExpired` and
`FileNotFoundError`, so a `PermissionError` raised by
`subprocess.run` propagates out of the function uncaught.  The
updated cache is returned alongside. -/
def call_claude (cache : Option String) (env : ResolveEnv) (sub : SubprocOutcome) :
    Except InvokerError String × Option String :=
  let r := find_claude_cli cache env
  match r.res with
  | none => (Except.error InvokerError.claudeNotFound, r.cache)
  | some b =>
    if b = "" then (Except.error InvokerError.claudeNotFound, r.cache)
    else
      match sub with
      | SubprocOutcome.completed rc out _ =>
        if rc ≠ 0 then (Except.ok "", r.cache)
        else (Except.ok (String.mk (pyStrip out.data)), r.cache)
      | SubprocOutcome.timeoutExpired => (Except.ok "", r.cache)
      | SubprocOutcome.fileNotFound => (Except.ok "", r.cache)
      | SubprocOutcome.permissionError =>
        (Except.error InvokerError.permissionError, r.cache)

/-- The dict comprehension in `assemble`:
`{q: a for q, a in answers.items() if a.strip()}`.  On an
insertion-ordered association list with distinct keys this is a
filter. -/
def filledOf (answers : List (String × String)) : List (String × String) :=
  answers.filter (fun qa => !(pyStrip qa.2.data).isEmpty)

/-- The context block `assemble` sends to the tool:
`"\n\n".join(f"Q: {q}\nA: {a}" for q, a in filled.items())`. -/
def contextOf (pairs : List (String × String)) : String :=
  String.intercalate "\n\n" (pairs.map (fun qa => "Q: " ++ qa.1 ++ "\nA: " ++ qa.2))

/-- Model of `assemble` (src/prompt_guide/cli.py, lines 131-143),
parametrised by the tool's response to the assembly request (the
empty string models every invoker failure).  Returns the produced
prompt and whether the external tool was invoked at all. -/
def assemble (original : String) (answers : List (String × String))
    (toolResponse : String) : String × Bool :=
  let filled := filledOf answers
  if filled.isEmpty then (original, false)
  else (if toolResponse = "" then original else toolResponse, true)

/-- The question text `q["question"]` of a decoded question record.
In `run` this is applied only to records that passed
`_validate_questions`, so the field is always a present string; the
defaults here are dead code kept for totality. -/
def questionKey (q : Json) : String :=
  match q with
  | Json.obj kvs =>
    match dictLookup kvs "question" with
    | some (Json.str s) => s
    | _ => ""
  | _ => ""

/-- Pair each question key with the user's answer for it; a missing
answer is the empty string, since `ask(default="")` returns the
default on end-of-input. -/
def zipPadKeys : List String → List String → List (String × String)
  | [], _ => []
  | k :: ks, [] => (k, "") :: zipPadKeys ks []
  | k :: ks, a :: rest => (k, a) :: zipPadKeys ks rest

/-- Build a Python dict by successive assignments `d[k] = v`. -/
def buildDict (ps : List (String × String)) : List (String × String) :=
  ps.foldl (fun d p => dictSet d p.1 p.2) []

/-- The answer-gathering loop of `run` (src/prompt_guide/cli.py, lines
178-186): `answers[q["question"]] = ask(default="")` for each
question in order, into one dict. -/
def collectAnswers (questions : List Json) (userAnswers : List String) :
    List (String × String) :=
  buildDict (zipPadKeys (questions.map questionKey) userAnswers)

/-- How a `run` invocation ends (apart from a propagated exception):
either a returned string or `sys.exit(0)` on cancel. -/
inductive RunOutcome where
  | value (s : String)
  | exitZero
deriving Repr, DecidableEq

/-- The interactive inputs a `run` invocation may consume: one `ask`
answer per question, the confirmation choice, and the lines typed in
edit mode. -/
structure RunInputs where
  userAnswers : List String
  choice : String
  editLines : List String

/-- Model of `run` (src/prompt_guide/cli.py, lines 146-214),
parametrised by the tool responses to the analyze and assemble
requests.  The second component counts external-tool invocations and
the third counts questions asked interactively.  The non-dict
analysis branch is unreachable (`analyze` always returns a dict) but
is kept to mirror the attribute accesses `analysis.get(...)`. -/
def run (raw : String) (quiet : Bool) (analyzeResponse assembleResponse : String)
    (ui : RunInputs) : Except PyError RunOutcome × Nat × Nat :=
  match analyze_core analyzeResponse with
  | Except.error e => (Except.error e, 1, 0)
  | Except.ok analysis =>
    match analysis with
    | Json.obj kvs =>
      let questionsJson := (dictLookup kvs "questions").getD (Json.arr [])
      if isFalsy questionsJson then (Except.ok (RunOutcome.value raw), 1, 0)
      else if quiet then (Except.ok (RunOutcome.value raw), 1, 0)
      else
        let questions := match questionsJson with | Json.arr l => l | _ => []
        let answers := collectAnswers questions ui.userAnswers
        if answers.all (fun qa => (pyStrip qa.2.data).isEmpty) then
          (Except.ok (RunOutcome.value raw), 1, questions.length)
        else
          let assembled := assemble raw answers assembleResponse
          let calls := if assembled.2 then 2 else 1
          if ui.choice = "yes" then
            (Except.ok (RunOutcome.value assembled.1), calls, questions.length)
          else if ui.choice = "edit" then
            (Except.ok (RunOutcome.value
              (if ui.editLines.isEmpty then assembled.1
               else String.intercalate "\n" ui.editLines)), calls, questions.length)
          else (Except.ok RunOutcome.exitZero, calls, questions.length)
    | _ => (Except.error PyError.attributeError, 1, 0)

/-- Modelled from the claim's wording, for comparison with the code's
filter: an element is well-formed when it is a dict whose `question`
field is a string that is not empty and not whitespace-only, i.e.
contains at least one non-whitespace character. -/
def specWellFormed (q : Json) : Bool :=
  match q with
  | Json.obj kvs =>
    match dictLookup kvs "question" with
    | some (Json.str s) => s.data.any (fun c => !pySpace c)
    | _ => false
  | _ => false

/-- A resolution environment in which no binary exists anywhere. -/
def noToolEnv : ResolveEnv :=
  ⟨none, fun _ => false, fun s => s⟩

/-- A resolution environment in which the binary has appeared on the
search path (for example, installed between two calls). -/
def toolAppearsEnv : ResolveEnv :=
  ⟨some "/usr/bin/claude", fun _ => false, fun s => s⟩

/-- A resolution environment in which `shutil.which` finds nothing but
a NON-executable file sits at `~/.claude/local/claude`: the fallback
check is `os.path.isfile` only, so the path resolves all the same,
and the subsequent spawn raises `PermissionError`. -/
def nonExecutableEnv : ResolveEnv :=
  ⟨none,
   fun p => p == "/home/user/.claude/local/claude",
   fun s => if s == "~/.claude/local/claude" then "/home/user/.claude/local/claude" else s⟩

/-! ## Theorems -/

theorem pyStrip_eq_nil_iff (cs : List Char) :
    pyStrip cs = [] ↔ ∀ c ∈ cs, pySpace c := by
  unfold pyStrip
  rw [List.reverse_eq_nil_iff, List.dropWhile_eq_nil_iff]
  constructor
  · intro h c hc
    have hc2 : c ∈ cs.takeWhile pySpace ++ cs.dropWhile pySpace := by
      rw [List.takeWhile_append_dropWhile]; exact hc
    rcases List.mem_append.mp hc2 with h1 | h2
    · exact List.mem_takeWhile_imp h1
    · exact h c (List.mem_reverse.mpr h2)
  · intro h c hc
    exact h c ((List.dropWhile_sublist pySpace).subset (List.mem_reverse.mp hc))

theorem questionFieldOk_eq_spec (q : Json) : questionFieldOk q = specWellFormed q := by
  cases q with
  | obj kvs =>
    simp only [questionFieldOk, specWellFormed]
    cases h : dictLookup kvs "question" with
    | none => rfl
    | some v =>
      cases v with
      | str s =>
        have h1 : (!(pyStrip s.data).isEmpty) = true ↔ ¬ ∀ c ∈ s.data, pySpace c := by
          rw [Bool.not_eq_true', ← Bool.not_eq_true, List.isEmpty_eq_true,
            pyStrip_eq_nil_iff]
        have h2 : (s.data.any fun c => !pySpace c) = true ↔ ¬ ∀ c ∈ s.data, pySpace c := by
          rw [List.any_eq_true]
          push_neg
          constructor
          · rintro ⟨c, hc, hnc⟩
            exact ⟨c, hc, by simpa using hnc⟩
          · rintro ⟨c, hc, hnc⟩
            exact ⟨c, hc, by simpa using hnc⟩
        rw [Bool.eq_iff_iff, h1, h2]
      | null => rfl
      | bool b => rfl
      | num m p => rfl
      | arr l => rfl
      | obj l => rfl
  | null => rfl
  | bool b => rfl
  | num m p => rfl
  | str s => rfl
  | arr l => rfl

theorem foldl_append_eq_filter (p : Json → Bool) (l acc : List Json) :
    l.foldl (fun valid q => if p q then valid ++ [q] else valid) acc = acc ++ l.filter p := by
  induction l generalizing acc with
  | nil => simp
  | cons q l ih =>
    by_cases h : p q <;> simp [List.filter_cons, h, ih]

/-- Claim C4: `_validate_questions` returns exactly the sub-sequence of
elements that are dicts whose `question` field is a non-empty,
non-whitespace-only string, in their original relative order, and no
ill-formed element appears in the output. -/
theorem validate_questions_filters (qs : List Json) :
    validate_questions qs = qs.filter specWellFormed ∧
    (validate_questions qs).Sublist qs ∧
    ∀ q ∈ validate_questions qs, specWellFormed q = true := by
  have hfil : validate_questions qs = qs.filter specWellFormed := by
    unfold validate_questions
    rw [foldl_append_eq_filter, List.nil_append]
    exact List.filter_congr (fun q _ => questionFieldOk_eq_spec q)
  refine ⟨hfil, ?_, ?_⟩
  · rw [hfil]; exact List.filter_sublist qs
  · intro q hq
    rw [hfil] at hq
    exact (List.mem_filter.mp hq).2

theorem dictLookup_dictSet {α : Type} (d : List (String × α)) (k : String) (v : α)
    (k' : String) :
    dictLookup (dictSet d k v) k' = if k = k' then some v else dictLookup d k' := by
  induction d with
  | nil => simp [dictSet, dictLookup]
  | cons hd tl ih =>
    obtain ⟨a, b⟩ := hd
    simp only [dictSet]
    by_cases h1 : a = k
    · rw [if_pos h1]
      simp only [dictLookup]
      by_cases h2 : a = k'
      · rw [if_pos h2, if_pos (h1.symm.trans h2)]
      · rw [if_neg h2, if_neg (fun hkk => h2 (h1.trans hkk)), if_neg h2]
    · rw [if_neg h1]
      simp only [dictLookup, ih]
      by_cases h2 : a = k'
      · rw [if_pos h2, if_neg (fun hkk : k = k' => h1 (h2.trans hkk.symm)), if_pos h2]
      · rw [if_neg h2, if_neg h2]

theorem mem_keys_dictSet {α : Type} (d : List (String × α)) (k : String) (v : α)
    (x : String) :
    x ∈ (dictSet d k v).map Prod.fst ↔ x ∈ d.map Prod.fst ∨ x = k := by
  induction d with
  | nil => simp [dictSet]
  | cons hd tl ih =>
    obtain ⟨a, b⟩ := hd
    simp only [dictSet]
    by_cases h1 : a = k
    · subst h1
      rw [if_pos rfl]
      simp only [List.map_cons, List.mem_cons]
      tauto
    · rw [if_neg h1]
      simp only [List.map_cons, List.mem_cons, ih]
      tauto

theorem nodup_keys_dictSet {α : Type} (d : List (String × α)) (k : String) (v : α)
    (h : (d.map Prod.fst).Nodup) : ((dictSet d k v).map Prod.fst).Nodup := by
  induction d with
  | nil => simp [dictSet]
  | cons hd tl ih =>
    obtain ⟨a, b⟩ := hd
    simp only [dictSet]
    rw [List.map_cons] at h
    rcases List.nodup_cons.mp h with ⟨ha, htl⟩
    by_cases h1 : a = k
    · rw [if_pos h1]
      simpa using h
    · rw [if_neg h1]
      simp only [List.map_cons, List.nodup_cons]
      refine ⟨?_, ih htl⟩
      rw [mem_keys_dictSet]
      rintro (hmem | rfl)
      · exact ha hmem
      · exact h1 rfl

theorem foldl_dictSet_lookup (ps : List (String × String)) (d : List (String × String))
    (k : String) :
    dictLookup (ps.foldl (fun acc p => dictSet acc p.1 p.2) d) k =
      ((ps.reverse.find? (fun p => p.1 == k)).map Prod.snd).or (dictLookup d k) := by
  induction ps generalizing d with
  | nil => simp
  | cons p ps ih =>
    simp only [List.foldl_cons, List.reverse_cons, List.find?_append, ih]
    rw [dictLookup_dictSet]
    cases hf : ps.reverse.find? (fun q => q.1 == k) with
    | some q => simp
    | none =>
      by_cases h : p.1 = k
      · simp [List.find?, h]
      · have hb : (p.1 == k) = false := beq_eq_false_iff_ne.mpr h
        simp [List.find?, hb, h]

theorem foldl_dictSet_keys_nodup (ps : List (String × String))
    (d : List (String × String)) (h : (d.map Prod.fst).Nodup) :
    ((ps.foldl (fun acc p => dictSet acc p.1 p.2) d).map Prod.fst).Nodup := by
  induction ps generalizing d with
  | nil => simpa
  | cons p ps ih => exact ih _ (nodup_keys_dictSet _ _ _ h)

/-- Claim C10: the answer store is keyed by question text, so when the
validated questions list contains several entries with identical
question text, looking a question up yields the answer entered for its
LAST occurrence (later answers overwrite earlier ones), and the pair
list from which `assemble` builds its context block (`filledOf` of the
gathered answers, rendered by `contextOf`) carries no duplicate
question text. -/
theorem answers_overwrite_and_context_unique (questions : List Json)
    (userAnswers : List String) (k : String) :
    dictLookup (collectAnswers questions userAnswers) k =
      ((zipPadKeys (questions.map questionKey) userAnswers).reverse.find?
        (fun p => p.1 == k)).map Prod.snd ∧
    ((filledOf (collectAnswers questions userAnswers)).map Prod.fst).Nodup := by
  constructor
  · unfold collectAnswers buildDict
    rw [foldl_dictSet_lookup]
    simp [dictLookup]
  · have h1 : ((collectAnswers questions userAnswers).map Prod.fst).Nodup := by
      unfold collectAnswers buildDict
      exact foldl_dictSet_keys_nodup _ _ (by simp)
    have h2 : (filledOf (collectAnswers questions userAnswers)).Sublist
        (collectAnswers questions userAnswers) := List.filter_sublist _
    exact h1.sublist (h2.map Prod.fst)

/-- Claim C1 counterexample: the input consisting of a record whose
`questions` field is a number (wrong field type) is returned as
parsed, not replaced by the empty record, so "whenever the input is
malformed structured data (… wrong field types) it returns the empty
record" fails. -/
theorem parse_json_response_keeps_wrong_field_types :
    parse_json_response "\x7b\"questions\": 5\x7d" =
      Json.obj [("questions", Json.num 5 0)] ∧
    Json.obj [("questions", Json.num 5 0)] ≠ Json.obj [] :=
  ⟨rfl, by simp⟩

/-- Claim C1 (amended): for every input string `parse_json_response`
returns without raising; it returns the decoded value of whichever
parse attempt succeeds first (the strict parse of the cleaned text,
then the brace-substring fallback) with no field validation at all,
and it returns the empty record exactly when both attempts fail. -/
theorem parse_json_response_amended (raw : String) :
    (∀ v, loadsL (cleanedOf raw) = some v → parse_json_response raw = v) ∧
    (loadsL (cleanedOf raw) = none →
      ∀ v, fallbackParse (cleanedOf raw) = some v → parse_json_response raw = v) ∧
    (loadsL (cleanedOf raw) = none → fallbackParse (cleanedOf raw) = none →
      parse_json_response raw = Json.obj []) := by
  refine ⟨?_, ?_, ?_⟩
  · intro v hv
    simp [parse_json_response, hv]
  · intro h0 v hv
    unfold fallbackParse at hv
    cases he : extractBraces (cleanedOf raw) with
    | none => rw [he] at hv; simp at hv
    | some sub =>
      rw [he] at hv
      simp only [Option.some_bind] at hv
      simp [parse_json_response, h0, he, hv]
  · intro h0 h1
    unfold fallbackParse at h1
    cases he : extractBraces (cleanedOf raw) with
    | none => simp [parse_json_response, h0, he]
    | some sub =>
      rw [he] at h1
      simp only [Option.some_bind] at h1
      simp [parse_json_response, h0, he, h1]

/-- Witness for the amended C1: a concrete input on which both parse
attempts fail (and the empty record is returned), and a concrete
record with a wrongly-typed field that the strict parse succeeds on
(and which is returned unvalidated). -/
theorem parse_json_response_amended_witness :
    parse_json_response "hello" = Json.obj [] ∧
    parse_json_response "\x7b\"a\":1\x7d" = Json.obj [("a", Json.num 1 0)] :=
  ⟨(parse_json_response_amended "hello").2.2 rfl rfl,
   (parse_json_response_amended "\x7b\"a\":1\x7d").1 (Json.obj [("a", Json.num 1 0)]) rfl⟩

/-- Claim C2 evidence: the invoker output `"5"` is parseable, so
`parse_json_response` hands `analyze` the truthy non-dict `5`, and
the attribute access `result.get("questions", [])` raises
`AttributeError` — `analyze` does NOT return normally on every
invoker output.  On a genuine invoker failure (the empty string) the
documented fallback record is indeed returned. -/
theorem analyze_raises_attribute_error :
    analyze_core "5" = Except.error PyError.attributeError ∧
    analyze_core "" = Except.ok defaultAnalysis :=
  ⟨rfl, rfl⟩

/-- Claim C5: when no answer is non-blank (the empty mapping
included), `assemble` returns the original prompt unchanged and never
invokes the external tool. -/
theorem assemble_all_blank_returns_original (original : String)
    (answers : List (String × String)) (toolResponse : String)
    (h : ∀ qa ∈ answers, pyStrip qa.2.data = []) :
    assemble original answers toolResponse = (original, false) := by
  have hfil : filledOf answers = [] := by
    unfold filledOf
    rw [List.filter_eq_nil_iff]
    intro qa hqa
    simp [h qa hqa]
  simp [assemble, hfil]

/-- Witness for C5 at a whitespace-only answer set and at the empty
answer set (the round-trip case). -/
theorem assemble_all_blank_witness :
    assemble "orig" [("q", "  ")] "RESP" = ("orig", false) ∧
    assemble "orig" [] "RESP" = ("orig", false) :=
  ⟨assemble_all_blank_returns_original "orig" [("q", "  ")] "RESP" (by decide),
   assemble_all_blank_returns_original "orig" [] "RESP" (by decide)⟩

/-- Claim C6: with at least one non-blank answer, when the external
tool fails (empty response) `assemble` returns the original prompt
unchanged (after having invoked the tool). -/
theorem assemble_tool_failure_returns_original (original : String)
    (answers : List (String × String))
    (h : ∃ qa ∈ answers, pyStrip qa.2.data ≠ []) :
    assemble original answers "" = (original, true) := by
  have hfil : filledOf answers ≠ [] := by
    unfold filledOf
    rw [ne_eq, List.filter_eq_nil_iff]
    push_neg
    obtain ⟨qa, hqa, hne⟩ := h
    exact ⟨qa, hqa, by simp [hne]⟩
  simp [assemble, hfil]

/-- Witness for C6 at a concrete one-answer set. -/
theorem assemble_tool_failure_witness :
    assemble "orig" [("q", "a")] "" = ("orig", true) :=
  assemble_tool_failure_returns_original "orig" [("q", "a")]
    ⟨("q", "a"), by decide, by decide⟩

theorem find_fallback_eq (c : Option String) (env : ResolveEnv) :
    find_claude_cli.find_fallback c env =
      (if env.isFile (env.expanduser "~/.claude/local/claude") then
        ⟨some (env.expanduser "~/.claude/local/claude"),
         some (env.expanduser "~/.claude/local/claude"), true⟩
      else if env.isFile (env.expanduser "/usr/local/bin/claude") then
        ⟨some (env.expanduser "/usr/local/bin/claude"),
         some (env.expanduser "/usr/local/bin/claude"), true⟩
      else ⟨none, c, true⟩) := rfl

theorem find_none_eq (env : ResolveEnv) :
    find_claude_cli none env =
      (match env.whichClaude with
       | some found =>
         if found ≠ "" then ⟨some found, some found, true⟩
         else find_claude_cli.find_fallback none env
       | none => find_claude_cli.find_fallback none env) := rfl

/-- Claim C3 evidence (code bug): in an environment where
`shutil.which` finds nothing but a non-executable file sits at
`~/.claude/local/claude`, the binary RESOLVES (the fallback checks
`os.path.isfile` only, never executability), so no
`ClaudeNotFoundError` is raised — yet the `PermissionError` that
`subprocess.run` then raises is caught by no `except` clause and
propagates past the invoker boundary, where the claim requires the
empty string.  The two exception classes the code does name,
`subprocess.TimeoutExpired` and `FileNotFoundError`, are degraded to
the empty string as the claim describes. -/
theorem call_claude_spawn_error_propagates :
    (find_claude_cli none nonExecutableEnv).res =
      some "/home/user/.claude/local/claude" ∧
    (call_claude none nonExecutableEnv SubprocOutcome.permissionError).1 =
      Except.error InvokerError.permissionError ∧
    (call_claude none nonExecutableEnv SubprocOutcome.fileNotFound).1 =
      Except.ok "" ∧
    (call_claude none nonExecutableEnv SubprocOutcome.timeoutExpired).1 =
      Except.ok "" :=
  ⟨rfl, rfl, rfl, rfl⟩

/-- Claim C7: when the analysis carries an empty questions list, `run`
returns the draft unchanged after the single analyze tool call, with
zero questions asked, in either mode. -/
theorem run_no_questions_returns_draft (raw : String) (quiet : Bool)
    (analyzeResponse assembleResponse : String) (ui : RunInputs)
    (kvs : List (String × Json))
    (h : analyze_core analyzeResponse = Except.ok (Json.obj kvs))
    (hq : (dictLookup kvs "questions").getD (Json.arr []) = Json.arr []) :
    run raw quiet analyzeResponse assembleResponse ui =
      (Except.ok (RunOutcome.value raw), 1, 0) := by
  simp [run, h, hq, isFalsy]

/-- Witness for C7: an invoker failure yields the default analysis
with an empty questions list, and `run` hands back the draft. -/
theorem run_no_questions_witness :
    run "draft" false "" "X" ⟨[], "yes", []⟩ =
      (Except.ok (RunOutcome.value "draft"), 1, 0) :=
  run_no_questions_returns_draft "draft" false "" "X" ⟨[], "yes", []⟩
    [("task_summary", Json.str ""), ("questions", Json.arr [])] rfl rfl

/-- Claim C8: in quiet mode, even when the analysis carries a
non-empty questions list, `run` returns the draft unchanged, asks
zero questions and never reaches `assemble` (a single tool call). -/
theorem run_quiet_returns_draft (raw : String)
    (analyzeResponse assembleResponse : String) (ui : RunInputs)
    (kvs : List (String × Json)) (qs : List Json)
    (h : analyze_core analyzeResponse = Except.ok (Json.obj kvs))
    (hq : (dictLookup kvs "questions").getD (Json.arr []) = Json.arr qs)
    (hne : qs ≠ []) :
    run raw true analyzeResponse assembleResponse ui =
      (Except.ok (RunOutcome.value raw), 1, 0) := by
  simp [run, h, hq, isFalsy, hne]

/-- Witness for C8 with a one-question analysis response. -/
theorem run_quiet_returns_draft_witness :
    run "draft" true
      "\x7b\"task_summary\":\"x\",\"questions\":[\x7b\"question\":\"Which?\"\x7d]\x7d"
      "X" ⟨["ans"], "yes", []⟩ =
      (Except.ok (RunOutcome.value "draft"), 1, 0) :=
  run_quiet_returns_draft "draft" _ "X" ⟨["ans"], "yes", []⟩
    [("task_summary", Json.str "x"),
     ("questions", Json.arr [Json.obj [("question", Json.str "Which?")]])]
    [Json.obj [("question", Json.str "Which?")]] rfl rfl (by simp)

theorem find_fallback_cases (c : Option String) (env : ResolveEnv) :
    (∃ b, find_claude_cli.find_fallback c env = ⟨some b, some b, true⟩) ∨
    find_claude_cli.find_fallback c env = ⟨none, c, true⟩ := by
  rw [find_fallback_eq]
  split_ifs
  · exact Or.inl ⟨_, rfl⟩
  · exact Or.inl ⟨_, rfl⟩
  · exact Or.inr rfl

theorem find_claude_cli_cases (cache : Option String) (env : ResolveEnv) :
    (∃ b, (find_claude_cli cache env).res = some b ∧
      (find_claude_cli cache env).cache = some b) ∨
    ((find_claude_cli cache env).res = none ∧
      (find_claude_cli cache env).cache = cache ∧ cache = none) := by
  cases cache with
  | some b => exact Or.inl ⟨b, rfl, rfl⟩
  | none =>
    rw [find_none_eq]
    cases henv : env.whichClaude with
    | some f =>
      simp only []
      by_cases hf : f = ""
      · rw [if_neg (by simp [hf])]
        rcases find_fallback_cases none env with ⟨b, hb⟩ | hb
        · exact Or.inl ⟨b, by rw [hb], by rw [hb]⟩
        · exact Or.inr ⟨by rw [hb], by rw [hb], by trivial⟩
      · refine Or.inl ⟨f, ?_, ?_⟩ <;> rw [if_pos hf]
    | none =>
      rcases find_fallback_cases none env with ⟨b, hb⟩ | hb
      · exact Or.inl ⟨b, by rw [hb], by rw [hb]⟩
      · exact Or.inr ⟨by rw [hb], by rw [hb], by trivial⟩

theorem searched_of_cache_none (env : ResolveEnv) :
    (find_claude_cli none env).searched = true := by
  rw [find_none_eq]
  cases henv : env.whichClaude with
  | some f =>
    simp only []
    by_cases hf : f = ""
    · rw [if_neg (by simp [hf])]
      rw [find_fallback_eq]
      split_ifs <;> rfl
    · rw [if_pos hf]
  | none =>
    rw [find_fallback_eq]
    split_ifs <;> rfl

/-- Claim C9 counterexample: with no binary anywhere, the first lookup
fails and caches nothing; a subsequent call performs a fresh search
(so the claim's "without a new search" fails), and if the binary has
meanwhile appeared the subsequent call returns a different result
than the first (so "returns the same result as that first call"
fails as well). -/
theorem find_claude_cli_failure_not_cached :
    (find_claude_cli none noToolEnv).res = none ∧
    (find_claude_cli (find_claude_cli none noToolEnv).cache noToolEnv).searched = true ∧
    (find_claude_cli (find_claude_cli none noToolEnv).cache toolAppearsEnv).res =
      some "/usr/bin/claude" :=
  ⟨rfl, rfl, rfl⟩

/-- Claim C9 (amended): only a successful resolution is cached.  After
a call that returns a path, every subsequent call returns that same
path from the cache without a new search; after an exhaustive failure
the cache is left empty and every subsequent call searches afresh
(and may therefore return a different result if the environment
changed). -/
theorem find_claude_cli_success_cached (cache : Option String) (env env2 : ResolveEnv) :
    (∀ b, (find_claude_cli cache env).res = some b →
      (find_claude_cli cache env).cache = some b ∧
      find_claude_cli (find_claude_cli cache env).cache env2 =
        ⟨some b, some b, false⟩) ∧
    ((find_claude_cli cache env).res = none →
      (find_claude_cli cache env).cache = cache ∧
      (find_claude_cli (find_claude_cli cache env).cache env2).searched = true) := by
  rcases find_claude_cli_cases cache env with ⟨b0, hres, hcache⟩ | ⟨hres, hcache, hnone⟩
  · constructor
    · intro b hb
      have hb0 : b0 = b := Option.some.inj (hres ▸ hb)
      subst hb0
      refine ⟨hcache, ?_⟩
      rw [hcache]
      rfl
    · intro h0
      rw [hres] at h0
      exact absurd h0 (by simp)
  · constructor
    · intro b hb
      rw [hres] at hb
      exact absurd hb (by simp)
    · intro _
      refine ⟨hcache, ?_⟩
      rw [hcache, hnone]
      exact searched_of_cache_none env2

/-- Witness for the amended C9: a cached path is returned again with
no search. -/
theorem find_claude_cli_success_cached_witness :
    (find_claude_cli (some "/usr/bin/claude") noToolEnv).cache = some "/usr/bin/claude" ∧
    find_claude_cli (find_claude_cli (some "/usr/bin/claude") noToolEnv).cache noToolEnv =
      ⟨some "/usr/bin/claude", some "/usr/bin/claude", false⟩ :=
  (find_claude_cli_success_cached (some "/usr/bin/claude") noToolEnv noToolEnv).1
    "/usr/bin/claude" rfl

/-- Witness for C4: a mixed list with one well-formed record, one
whitespace-only question, one record of the wrong shape and one
non-record keeps exactly the well-formed record. -/
theorem validate_questions_filters_witness :
    validate_questions
      [Json.obj [("question", Json.str "Which?")],
       Json.obj [("question", Json.str "   ")],
       Json.obj [("why", Json.str "w")],
       Json.str "bad"] =
      [Json.obj [("question", Json.str "Which?")]] := by
  have h := (validate_questions_filters
    [Json.obj [("question", Json.str "Which?")],
     Json.obj [("question", Json.str "   ")],
     Json.obj [("why", Json.str "w")],
     Json.str "bad"]).1
  rw [h]
  rfl

/-- Witness for C10: two occurrences of the same question text leave a
single entry holding the later answer. -/
theorem answers_overwrite_witness :
    dictLookup
      (collectAnswers
        [Json.obj [("question", Json.str "Q")], Json.obj [("question", Json.str "Q")]]
        ["first", "second"]) "Q" = some "second" := by
  have h := (answers_overwrite_and_context_unique
    [Json.obj [("question", Json.str "Q")], Json.obj [("question", Json.str "Q")]]
    ["first", "second"] "Q").1
  rw [h]
  rfl

end PromptGuide
